import Mathlib

/-!
# Verification of feedfetch (FeedCache) against its specification

Shallow embedding of `src/feedfetch.py` (`FeedCache.fetch`, `FeedCache.__get`,
`FeedCache.__update`) and, for the TTL-cache layer whose source module is not
present, a spec-modelled `ShelfCache`.

Modelling conventions:
- `datetime` instants are modelled as `Int` (an abstract tick count);
  `timedelta(seconds = n)` is the `Nat` `n` added to an instant.
- `feedparser.util.FeedParserDict` is modelled by the structure
  `FeedParserDict` holding exactly the fields `fetch` reads:
  `status`, `entries`, `bozo`, `bozo_exception`, `etag`, `modified`, `headers`.
- The shelve store is an association list from url strings to stored values.
- The external collaborator `self.parse(url, etag=…, modified=…)` is not run;
  `fetch` takes the value that call would return as the argument `resp`
  (`none` models `parse` returning `None`).  The `FetchResult.fetched`
  constructor records the `etag`/`modified` arguments that were passed to the
  collaborator, so that claims about the conditional-fetch hints and about
  "the collaborator was not invoked" are expressible.
- Raised exceptions become `Outcome` constructors: `FetchError` and
  `ParseError` carry what the exception carries; the `AttributeError` raised
  by evaluating `cached.feed` when `cached is None` (line 144) is the
  `attributeError` constructor.
-/

namespace FeedFetch

/-- The slice of `feedparser.util.FeedParserDict` that `FeedCache.fetch`
reads: `status` (absent when the fetch failed outright), `entries` (opaque
items; only emptiness matters to `fetch`, but we keep the list), `bozo` and
`bozo_exception` (the malformed flag and its reason), `etag` and `modified`
(validators stored from a previous response), and the response `headers`. -/
structure FeedParserDict where
  status : Option Int
  entries : List String
  bozo : Bool
  bozo_exception : String
  etag : Option String
  modified : Option String
  headers : List (String × String)
deriving DecidableEq, Repr

/-- `FeedCache.Feed` (lines 26-32): the wrapper stored in the shelf, pairing
the parsed feed with its expiration instant `expire_dt`. -/
structure Feed where
  feed : FeedParserDict
  expire_dt : Int
deriving DecidableEq, Repr

/-- The on-disk shelf contents: an association list keyed by url. -/
abbrev Store := List (String × Feed)

/-- Python `dict.get` / `shelf.get`: first binding for the key, if any. -/
def assocGet {α : Type} : List (String × α) → String → Option α
  | [], _ => none
  | (k, v) :: rest, u => if k = u then some v else assocGet rest u

/-- Python `shelf[url] = value`: overwrite the binding for the key, or add
it when absent (line 70). -/
def storeSet : Store → String → Feed → Store
  | [], u, v => [(u, v)]
  | (k, x) :: rest, u, v =>
      if k = u then (u, v) :: rest else (k, x) :: storeSet rest u v

/-- Observable behaviour of one call to `FeedCache.__get` (lines 57-64):
whether a shelf session was opened, and the value returned. -/
structure GetTrace where
  openedSession : Bool
  result : Option Feed
deriving DecidableEq, Repr

/-- `FeedCache.__get` (lines 57-64): when the db file exists at the path,
open a read session and return `shelf.get(url)`; otherwise return `None`
without opening a session. -/
def feedCacheGet (fileExists : Bool) (table : Store) (url : String) : GetTrace :=
  if fileExists then ⟨true, assocGet table url⟩ else ⟨false, none⟩

/-- The cached value `fetch` sees at line 105: the result of `__get`. -/
def cachedLookup (fileExists : Bool) (table : Store) (url : String) : Option Feed :=
  (feedCacheGet fileExists table url).result

/-- Python `str.lstrip('W/')` on the character list: remove every leading
character belonging to the set \x7b 'W', '/' \x7d (NOT the prefix "W/"). -/
def lstripSet : List Char → List Char
  | [] => []
  | c :: cs => if c = 'W' ∨ c = '/' then lstripSet cs else c :: cs

/-- Python `etag.lstrip('W/')` (line 115). -/
def lstripWSlash (s : String) : String :=
  String.mk (lstripSet s.toList)

/-- Lines 114-115: `etag = cached.feed.get('etag')`;
`etag = etag.lstrip('W/') if etag else None`.  An absent or empty (falsy)
stored etag yields `None`; otherwise all leading `W`/`/` characters are
stripped. -/
def stripWeakEtag : Option String → Option String
  | none => none
  | some e => if e = "" then none else some (lstripWSlash e)

/-- Greedy `\d+`: the maximal run of decimal digits at the head of the list. -/
def takeDigits : List Char → List Char
  | [] => []
  | c :: cs => if c.isDigit then c :: takeDigits cs else []

/-- Value of a digit run, as `int()` would read it. -/
def digitsVal (l : List Char) : Nat :=
  l.foldl (fun a c => a * 10 + (c.toNat - 48)) 0

/-- Does `pat` occur verbatim at the head of `s`? -/
def headMatches : List Char → List Char → Bool
  | [], _ => true
  | _ :: _, [] => false
  | p :: ps, c :: cs => p = c && headMatches ps cs

/-- `re.search('max-age=(\d+)', s)` on the character list: find the leftmost
position where `max-age=` is followed by at least one digit and return the
value of the maximal digit run there; otherwise keep scanning. -/
def searchMaxAge : List Char → Option Nat
  | [] => none
  | c :: cs =>
      if headMatches "max-age=".toList (c :: cs) then
        match takeDigits ((c :: cs).drop 8) with
        | [] => searchMaxAge cs
        | d :: ds => some (digitsVal (d :: ds))
      else searchMaxAge cs

/-- Lines 149-151: parse the max-age directive out of a cache-control
header value. -/
def parseMaxAge (s : String) : Option Nat :=
  searchMaxAge s.toList

/-- Lines 148-153 applied to the payload about to be written: the effective
TTL is `min(max-age, self.min_age)` when the payload's cache-control header
carries a max-age directive, else `self.min_age`. -/
def effectiveTTL (minAge : Nat) (payload : FeedParserDict) : Nat :=
  let cc := (assocGet payload.headers "cache-control").getD ""
  match parseMaxAge cc with
  | some d => min d minAge
  | none => minAge

/-- How one call to `FeedCache.fetch` ends once the collaborator has been
invoked: one of the two declared exceptions, the undeclared
`AttributeError` of line 144 (`cached.feed` with `cached = None`), or a
successful classification that writes `written` to the shelf and returns
`returned`. -/
inductive Outcome where
  | fetchError (status : Option Int)
  | parseError (reason : String)
  | attributeError
  | success (written : Feed) (returned : FeedParserDict)
deriving DecidableEq, Repr

/-- Result of one call to `FeedCache.fetch`: either a fresh cache hit
(lines 108-111, the collaborator is never invoked), or the collaborator was
invoked with the recorded `etag`/`modified` hints and the call ended in
`out`. -/
inductive FetchResult where
  | cacheHit (feed : FeedParserDict)
  | fetched (etag : Option String) (modified : Option String) (out : Outcome)
deriving DecidableEq, Repr

/-- Lines 146-156: compute `expire_dt = now + effective TTL` for the payload
about to be written and record the successful write-and-return. -/
def finishWrite (minAge : Nat) (now : Int) (payload : FeedParserDict) : Outcome :=
  .success ⟨payload, now + effectiveTTL minAge payload⟩ payload

/-- Lines 126-156: classify the collaborator's result `resp` (given the
`cached` value read earlier and the clock reading `now` taken at line 102).
Mirrors the source order: missing result or missing status, then
`status > 399`, then `status < 399 and len(entries) == 0 and bozo`, then
`status == NOT_MODIFIED` (304, substituting the previous payload), then the
fresh-payload write. -/
def classify (minAge : Nat) (cached : Option Feed) (now : Int)
    (resp : Option FeedParserDict) : Outcome :=
  match resp with
  | none => .fetchError none
  | some f =>
      match f.status with
      | none => .fetchError none
      | some st =>
          if 399 < st then .fetchError (some st)
          else if st < 399 ∧ f.entries.length = 0 ∧ f.bozo then
            .parseError f.bozo_exception
          else if st = 304 then
            match cached with
            | none => .attributeError
            | some c => finishWrite minAge now c.feed
          else finishWrite minAge now f

/-- `FeedCache.fetch` (lines 72-156).  `minAge` is `self.min_age`,
`fileExists`/`table` the shelf state, `now` the line-102 clock reading, and
`resp` the value `self.parse(url, etag, modified)` would return. -/
def fetch (minAge : Nat) (fileExists : Bool) (table : Store) (now : Int)
    (url : String) (resp : Option FeedParserDict) : FetchResult :=
  match cachedLookup fileExists table url with
  | some c =>
      if now < c.expire_dt then .cacheHit c.feed
      else
        .fetched (stripWeakEtag c.feed.etag) c.feed.modified
          (classify minAge (some c) now resp)
  | none => .fetched none none (classify minAge none now resp)

/-- The shelf contents after the call: `__update` (lines 66-70) runs exactly
when classification reached the final write (line 155); every other ending
(fresh hit or raised exception) leaves the shelf as it was. -/
def fetchStoreAfter (minAge : Nat) (fileExists : Bool) (table : Store)
    (now : Int) (url : String) (resp : Option FeedParserDict) : Store :=
  match fetch minAge fileExists table now url resp with
  | .fetched _ _ (.success written _) => storeSet table url written
  | _ => table

end FeedFetch

namespace ShelfCache

/-- Modelled from the spec: the TTL-cache layer `feedfetch.shelfcache`
(`ShelfCache`, `Item`) is absent from `src/`; only its tests are present.
Per §3 and §4.2, an `Item` holds an opaque payload (`data`), an optional
expiration instant `expire_dt` (absent means "never expires"), and the
write-time instant `created_dt`. -/
structure Item where
  data : String
  expire_dt : Option Int
  created_dt : Int
deriving DecidableEq, Repr

/-- A ShelfCache store: association list from keys to items. -/
abbrev Table := List (String × Item)

/-- Modelled from the spec (§8): staleness is false when the item has no
expiration, false strictly before the expiration instant, and true at or
after it. -/
def isStale (now : Int) (it : Item) : Bool :=
  match it.expire_dt with
  | none => false
  | some e => e ≤ now

/-- Result of the indexed-read form `cache[key]`: either the distinct
"not found" signal (`KeyError`) or the `(payload, is_stale)` pair. -/
inductive GetItemResult where
  | notFound
  | value (v : String × Bool)
deriving DecidableEq, Repr

/-- Modelled from the spec (§4.1, §4.2, §6): `ShelfCache.get(key)` opens a
read session (treating an absent db file as an empty store), returns no
result for an absent key and `(payload, is_stale)` otherwise, and never
mutates the store — the returned table is the post-call store contents. -/
def get (fileExists : Bool) (table : Table) (now : Int) (key : String) :
    Option (String × Bool) × Table :=
  let effective := if fileExists then table else []
  match FeedFetch.assocGet effective key with
  | none => (none, table)
  | some it => (some (it.data, isStale now it), table)

/-- Modelled from the spec (§4.2): the indexed-read form `cache[key]`
behaves like `get` but signals the distinct `NotFound` error for a missing
key instead of returning no result; it never mutates the store. -/
def getitem (fileExists : Bool) (table : Table) (now : Int) (key : String) :
    GetItemResult × Table :=
  let effective := if fileExists then table else []
  match FeedFetch.assocGet effective key with
  | none => (.notFound, table)
  | some it => (.value (it.data, isStale now it), table)

end ShelfCache

namespace FeedFetch

/-! ## Helper lemmas shared by the claim theorems -/

theorem effectiveTTL_le (minAge : Nat) (p : FeedParserDict) :
    effectiveTTL minAge p ≤ minAge := by
  have hrw : effectiveTTL minAge p =
      match parseMaxAge ((assocGet p.headers "cache-control").getD "") with
      | some d => min d minAge
      | none => minAge := rfl
  rw [hrw]
  cases parseMaxAge ((assocGet p.headers "cache-control").getD "") with
  | none => exact le_refl _
  | some d => exact min_le_right d minAge

/-- Inversion: the only way `classify` reaches a successful write is through
`finishWrite`, so the written entry is the returned payload stamped with
`now + effectiveTTL`, and on a status other than 304 the returned payload is
the collaborator's result itself. -/
theorem classify_success_inv (minAge : Nat) (cached : Option Feed) (now : Int)
    (resp : Option FeedParserDict) (w : Feed) (r : FeedParserDict)
    (h : classify minAge cached now resp = .success w r) :
    w = ⟨r, now + effectiveTTL minAge r⟩ ∧
    (∀ g st, resp = some g → g.status = some st → st ≠ 304 → r = g) := by
  unfold classify at h
  split at h
  · exact absurd h (by simp)
  case _ f =>
    split at h
    · exact absurd h (by simp)
    case _ st hst =>
      split at h
      · exact absurd h (by simp)
      · split at h
        · exact absurd h (by simp)
        · split at h
          case _ h304 =>
            split at h
            · exact absurd h (by simp)
            case _ c =>
              unfold finishWrite at h
              obtain ⟨hw, hr⟩ := Outcome.success.inj h
              subst hr
              exact ⟨hw.symm, fun g st' hg hst' hne => by
                cases hg
                rw [hst] at hst'
                obtain rfl := Option.some.inj hst'
                exact absurd h304 hne⟩
          case _ h304 =>
            unfold finishWrite at h
            obtain ⟨hw, hr⟩ := Outcome.success.inj h
            subst hr
            exact ⟨hw.symm, fun g st' hg hst' _ => by cases hg; rfl⟩

/-- The stale-or-missing path: when the cached entry is absent or already
expired, `fetch` invokes the collaborator with the stored validators and
ends in `classify`'s verdict. -/
theorem fetch_stale_eq (minAge : Nat) (fileExists : Bool) (table : Store)
    (now : Int) (url : String) (resp : Option FeedParserDict) (c : Feed)
    (hc : cachedLookup fileExists table url = some c)
    (hstale : c.expire_dt ≤ now) :
    fetch minAge fileExists table now url resp =
      .fetched (stripWeakEtag c.feed.etag) c.feed.modified
        (classify minAge (some c) now resp) := by
  unfold fetch
  rw [hc]
  show (if now < c.expire_dt then FetchResult.cacheHit c.feed
        else FetchResult.fetched (stripWeakEtag c.feed.etag) c.feed.modified
          (classify minAge (some c) now resp)) = _
  rw [if_neg (not_lt.mpr hstale)]

/-- The not-modified path: a 304 result on a stale cached entry (that does
not trip the malformed guard) substitutes the previous payload and stamps it
with `now + effectiveTTL` computed from that previous payload. -/
theorem fetch_304_eq (minAge : Nat) (fileExists : Bool) (table : Store)
    (now : Int) (url : String) (g : FeedParserDict) (c : Feed)
    (hc : cachedLookup fileExists table url = some c)
    (hstale : c.expire_dt ≤ now)
    (h304 : g.status = some 304)
    (hguard : ¬ (g.entries.length = 0 ∧ g.bozo)) :
    fetch minAge fileExists table now url (some g) =
      .fetched (stripWeakEtag c.feed.etag) c.feed.modified
        (.success ⟨c.feed, now + effectiveTTL minAge c.feed⟩ c.feed) := by
  rw [fetch_stale_eq minAge fileExists table now url (some g) c hc hstale]
  obtain ⟨gst, gent, gboz, gexc, getg, gmod, ghdr⟩ := g
  have hst : gst = some 304 := h304
  subst hst
  have hg : ¬ ((304 : Int) < 399 ∧ gent.length = 0 ∧ gboz = true) := by
    intro hA
    exact hguard ⟨hA.2.1, hA.2.2⟩
  simp only [classify]
  rw [if_neg (by decide : ¬ (399 : Int) < 304), if_neg hg]
  rfl

end FeedFetch

namespace FeedFetch

/-! ## Concrete inputs used by witnesses and counterexamples -/

/-- A plain error response: status 500. -/
def g500 : FeedParserDict := ⟨some 500, [], false, "", none, none, []⟩

/-- A not-modified response with no body and no headers. -/
def g304 : FeedParserDict := ⟨some 304, [], false, "", none, none, []⟩

/-- A shelf item used by the ShelfCache witness. -/
def itemA : ShelfCache.Item := ⟨"data", some 10, 0⟩

/-! ## Claim theorems -/

/-- C1: when the cache holds an entry for the url and the current time is
strictly before its expiration, `fetch` returns the cached payload's feed
directly (the collaborator is not invoked for any possible response) and the
store is not written; when the current time is at or after the expiration
(the boundary instant included), the entry is treated as stale and a
conditional fetch is issued. -/
theorem fetch_fresh_cache_hit (minAge : Nat) (fileExists : Bool) (table : Store)
    (now : Int) (url : String) (resp : Option FeedParserDict) (c : Feed)
    (hc : cachedLookup fileExists table url = some c) :
    (now < c.expire_dt →
       fetch minAge fileExists table now url resp = .cacheHit c.feed ∧
       fetchStoreAfter minAge fileExists table now url resp = table) ∧
    (c.expire_dt ≤ now →
       fetch minAge fileExists table now url resp =
         .fetched (stripWeakEtag c.feed.etag) c.feed.modified
           (classify minAge (some c) now resp)) := by
  constructor
  · intro h
    have hf : fetch minAge fileExists table now url resp = .cacheHit c.feed := by
      unfold fetch
      rw [hc]
      show (if now < c.expire_dt then FetchResult.cacheHit c.feed
            else FetchResult.fetched (stripWeakEtag c.feed.etag) c.feed.modified
              (classify minAge (some c) now resp)) = _
      rw [if_pos h]
    refine ⟨hf, ?_⟩
    unfold fetchStoreAfter
    rw [hf]
  · intro h
    exact fetch_stale_eq minAge fileExists table now url resp c hc h

/-- C1 witness: with a concrete fresh entry the call is a cache hit with no
write; at exactly the expiration instant the collaborator is invoked. -/
theorem fetch_fresh_cache_hit_witness :
    (fetch 1200 true [("u", ⟨g500, 100⟩)] 50 "u" none = .cacheHit g500 ∧
     fetchStoreAfter 1200 true [("u", ⟨g500, 100⟩)] 50 "u" none = [("u", ⟨g500, 100⟩)]) ∧
    (fetch 1200 true [("u", ⟨g500, 100⟩)] 100 "u" none =
       .fetched (stripWeakEtag g500.etag) g500.modified
         (classify 1200 (some ⟨g500, 100⟩) 100 none)) :=
  ⟨(fetch_fresh_cache_hit 1200 true [("u", ⟨g500, 100⟩)] 50 "u" none ⟨g500, 100⟩
      (by decide)).1 (by decide),
   (fetch_fresh_cache_hit 1200 true [("u", ⟨g500, 100⟩)] 100 "u" none ⟨g500, 100⟩
      (by decide)).2 (by decide)⟩

/-- C2: when the collaborator returns no result or a result with no status,
or a result whose status is at least 400, `fetch` ends in a `FetchError`
(carrying the status code when one is present) and the store is left exactly
as it was. -/
theorem fetch_error_no_write (minAge : Nat) (fileExists : Bool) (table : Store)
    (now : Int) (url : String) (resp : Option FeedParserDict)
    (hstale : ∀ c, cachedLookup fileExists table url = some c → c.expire_dt ≤ now)
    (hbad : (∀ g, resp = some g → g.status = none) ∨
            (∃ g st, resp = some g ∧ g.status = some st ∧ 400 ≤ st)) :
    (∃ e m s, fetch minAge fileExists table now url resp = .fetched e m (.fetchError s) ∧
       ∀ g st, resp = some g → g.status = some st → s = some st) ∧
    fetchStoreAfter minAge fileExists table now url resp = table := by
  have hcl : ∀ cached, ∃ s, classify minAge cached now resp = .fetchError s ∧
      ∀ g st, resp = some g → g.status = some st → s = some st := by
    intro cached
    rcases hbad with hnone | ⟨g, st, rfl, hst, h400⟩
    · cases resp with
      | none => exact ⟨none, rfl, fun g st hg => by cases hg⟩
      | some g =>
        have hgn := hnone g rfl
        refine ⟨none, ?_, fun g' st hg' hst' => ?_⟩
        · obtain ⟨gst, gent, gboz, gexc, getg, gmod, ghdr⟩ := g
          have : gst = none := hgn
          subst this
          rfl
        · obtain rfl : g = g' := by injection hg'
          rw [hgn] at hst'
          cases hst'
    · have h399 : (399 : Int) < st := by omega
      refine ⟨some st, ?_, fun g' st' hg' hst' => ?_⟩
      · obtain ⟨gst, gent, gboz, gexc, getg, gmod, ghdr⟩ := g
        have : gst = some st := hst
        subst this
        simp only [classify]
        rw [if_pos h399]
      · obtain rfl : g = g' := by injection hg'
        rw [hst] at hst'
        obtain rfl := Option.some.inj hst'
        rfl
  cases hc : cachedLookup fileExists table url with
  | none =>
    obtain ⟨s, hs, hcar⟩ := hcl none
    have hf : fetch minAge fileExists table now url resp =
        .fetched none none (.fetchError s) := by
      unfold fetch
      rw [hc, hs]
    exact ⟨⟨none, none, s, hf, hcar⟩, by unfold fetchStoreAfter; rw [hf]⟩
  | some c =>
    obtain ⟨s, hs, hcar⟩ := hcl (some c)
    have hf : fetch minAge fileExists table now url resp =
        .fetched (stripWeakEtag c.feed.etag) c.feed.modified (.fetchError s) := by
      rw [fetch_stale_eq minAge fileExists table now url resp c hc (hstale c hc), hs]
    exact ⟨⟨_, _, s, hf, hcar⟩, by unfold fetchStoreAfter; rw [hf]⟩

/-- C2 witness: a 500 response on an empty store ends in FetchError 500 and
writes nothing. -/
theorem fetch_error_no_write_witness :
    (∃ e m s, fetch 1200 false [] 0 "u" (some g500) = .fetched e m (.fetchError s) ∧
       ∀ g st, (some g500 : Option FeedParserDict) = some g → g.status = some st →
         s = some st) ∧
    fetchStoreAfter 1200 false [] 0 "u" (some g500) = [] :=
  fetch_error_no_write 1200 false [] 0 "u" (some g500)
    (fun c hc => by simp [cachedLookup, feedCacheGet] at hc)
    (Or.inr ⟨g500, 500, rfl, rfl, by decide⟩)

/-- C8: a cache read against a store file that does not exist reports the
key as missing (result `none`) without failing and without ever opening a
shelf session. -/
theorem get_no_db (table : Store) (url : String) :
    feedCacheGet false table url = ⟨false, none⟩ := rfl

/-- C9: for a key never written to the TTL cache, the optional-read form
returns no result and the indexed-read form signals the distinct NotFound
error; neither form changes the store contents. -/
theorem shelfcache_missing_key (fileExists : Bool) (table : ShelfCache.Table)
    (now : Int) (key : String)
    (h : assocGet table key = none) :
    ShelfCache.get fileExists table now key = (none, table) ∧
    ShelfCache.getitem fileExists table now key = (.notFound, table) := by
  cases fileExists with
  | false => exact ⟨rfl, rfl⟩
  | true =>
    constructor
    · show (match assocGet table key with
            | none => (none, table)
            | some it => (some (it.data, ShelfCache.isStale now it), table)) = (none, table)
      rw [h]
    · show (match assocGet table key with
            | none => (ShelfCache.GetItemResult.notFound, table)
            | some it => (ShelfCache.GetItemResult.value (it.data, ShelfCache.isStale now it),
                table)) = (ShelfCache.GetItemResult.notFound, table)
      rw [h]

/-- C9 witness: a concrete missing key yields `none` / NotFound with the
table unchanged. -/
theorem shelfcache_missing_key_witness :
    ShelfCache.get true [("k", itemA)] 5 "nonkey" = (none, [("k", itemA)]) ∧
    ShelfCache.getitem true [("k", itemA)] 5 "nonkey" = (.notFound, [("k", itemA)]) :=
  shelfcache_missing_key true [("k", itemA)] 5 "nonkey" (by decide)

/-- C10: when the cache holds no entry for the url and the collaborator
nevertheless reports not-modified (304), the substitution of the previous
payload dereferences the absent cached value, so the call ends in the
undeclared AttributeError (outside the FetchError/ParseError taxonomy),
returns no payload, and writes nothing. -/
theorem fetch_304_missing_entry (minAge : Nat) (fileExists : Bool) (table : Store)
    (now : Int) (url : String) (g : FeedParserDict)
    (hc : cachedLookup fileExists table url = none)
    (h304 : g.status = some 304)
    (hguard : ¬ (g.entries.length = 0 ∧ g.bozo)) :
    fetch minAge fileExists table now url (some g) = .fetched none none .attributeError ∧
    fetchStoreAfter minAge fileExists table now url (some g) = table := by
  have hf : fetch minAge fileExists table now url (some g) =
      .fetched none none .attributeError := by
    unfold fetch
    rw [hc]
    obtain ⟨gst, gent, gboz, gexc, getg, gmod, ghdr⟩ := g
    have hst : gst = some 304 := h304
    subst hst
    have hg : ¬ ((304 : Int) < 399 ∧ gent.length = 0 ∧ gboz = true) := by
      intro hA
      exact hguard ⟨hA.2.1, hA.2.2⟩
    show FetchResult.fetched none none
        (classify minAge none now (some ⟨some 304, gent, gboz, gexc, getg, gmod, ghdr⟩)) = _
    simp only [classify]
    rw [if_neg (by decide : ¬ (399 : Int) < 304), if_neg hg, if_pos trivial]
  exact ⟨hf, by unfold fetchStoreAfter; rw [hf]⟩

/-- C10 witness: a concrete 304 response on an empty store ends in the
AttributeError with the store unchanged. -/
theorem fetch_304_missing_entry_witness :
    fetch 1200 false [] 0 "u" (some g304) = .fetched none none .attributeError ∧
    fetchStoreAfter 1200 false [] 0 "u" (some g304) = [] :=
  fetch_304_missing_entry 1200 false [] 0 "u" g304 rfl rfl (by decide)

end FeedFetch

namespace FeedFetch

/-- A status-399 malformed response with no entries (C3 failing input). -/
def bozo399 : FeedParserDict := ⟨some 399, [], true, "boom", none, none, []⟩

/-- A response carrying a max-age directive (C4 witness input). -/
def gMa60 : FeedParserDict :=
  ⟨some 200, ["a"], false, "", none, none, [("cache-control", "max-age=60")]⟩

/-- A stale cached entry with validators and no cache-control header. -/
def c5cached : Feed := ⟨⟨some 200, ["old"], false, "", some "\"t5\"", some "lm5", []⟩, 500⟩

/-- A 304 revalidation response whose own header carries a huge max-age. -/
def c5resp : FeedParserDict :=
  ⟨some 304, [], false, "", none, none, [("cache-control", "max-age=999999")]⟩

/-- A stale cached entry whose stored header carries `max-age=60`. -/
def c6cached : Feed :=
  ⟨⟨some 200, ["a"], false, "", some "\"t6\"", some "lm6",
    [("cache-control", "max-age=60")]⟩, 500⟩

/-- A 304 revalidation response whose own header carries `max-age=800`. -/
def c6resp : FeedParserDict :=
  ⟨some 304, [], false, "", none, none, [("cache-control", "max-age=800")]⟩

/-- A stale cached entry whose stored entity tag is `WW/abc` (no `W/` prefix). -/
def c7cached : Feed := ⟨⟨some 200, ["a"], false, "", some "WW/abc", some "lm7", []⟩, 0⟩

/-- A stale cached entry with the canonical weak tag `W/x`. -/
def c7weak : Feed := ⟨⟨some 200, ["a"], false, "", some "W/x", some "lmw", []⟩, 0⟩

/-- Stripping stops at the first character outside the `W`/`/` set. -/
theorem lstripSet_cons_of_not (h : Char) (rest : List Char)
    (hnot : ¬ (h = 'W' ∨ h = '/')) : lstripSet (h :: rest) = h :: rest := by
  show (if h = 'W' ∨ h = '/' then lstripSet rest else h :: rest) = h :: rest
  rw [if_neg hnot]

/-- C3 (failing input): at status 399 — strictly below 400 — with zero
entries and the malformed flag set, the source's `status < 399` guard does
not fire: instead of raising ParseError with no cache write, `fetch` accepts
the malformed result, writes it to the shelf with the default TTL, and
returns it. -/
theorem fetch_status399_bozo_writes :
    fetch 1200 false [] 0 "u" (some bozo399) =
      .fetched none none (.success ⟨bozo399, 1200⟩ bozo399) ∧
    fetchStoreAfter 1200 false [] 0 "u" (some bozo399) = [("u", ⟨bozo399, 1200⟩)] ∧
    ∀ reason, Outcome.success ⟨bozo399, 1200⟩ bozo399 ≠ Outcome.parseError reason := by
  refine ⟨by decide, by decide, fun reason h => ?_⟩
  exact Outcome.noConfusion h

/-- C4: every accepted (written) result is stamped with an expiration at
most `min_age` seconds after the call's clock reading; and when the
accepted result is a fresh payload (status not 304), its TTL is exactly
`min(max-age, min_age)` when the response's cache-control header carries a
max-age directive, else `min_age`. -/
theorem fetch_effective_ttl (minAge : Nat) (fileExists : Bool) (table : Store)
    (now : Int) (url : String) (resp : Option FeedParserDict)
    (e m : Option String) (w : Feed) (r : FeedParserDict)
    (hs : fetch minAge fileExists table now url resp = .fetched e m (.success w r)) :
    w.expire_dt ≤ now + minAge ∧
    (∀ g st, resp = some g → g.status = some st → st ≠ 304 →
       w.expire_dt = now +
         ((match parseMaxAge ((assocGet g.headers "cache-control").getD "") with
           | some d => min d minAge
           | none => minAge : Nat) : Int)) := by
  have hcl : ∃ cached, classify minAge cached now resp = .success w r := by
    unfold fetch at hs
    cases hc : cachedLookup fileExists table url with
    | none =>
      rw [hc] at hs
      exact ⟨none, (FetchResult.fetched.inj hs).2.2⟩
    | some c =>
      rw [hc] at hs
      have hs2 : (if now < c.expire_dt then FetchResult.cacheHit c.feed
          else FetchResult.fetched (stripWeakEtag c.feed.etag) c.feed.modified
            (classify minAge (some c) now resp)) =
          FetchResult.fetched e m (Outcome.success w r) := hs
      by_cases hlt : now < c.expire_dt
      · rw [if_pos hlt] at hs2
        exact FetchResult.noConfusion hs2
      · rw [if_neg hlt] at hs2
        exact ⟨some c, (FetchResult.fetched.inj hs2).2.2⟩
  obtain ⟨cached, hclv⟩ := hcl
  obtain ⟨hw, hr⟩ := classify_success_inv minAge cached now resp w r hclv
  subst hw
  constructor
  · show now + (effectiveTTL minAge r : Int) ≤ now + (minAge : Int)
    exact add_le_add_left (by exact_mod_cast effectiveTTL_le minAge r) now
  · intro g st hg hst hne
    obtain rfl : r = g := hr g st hg hst hne
    rfl

/-- C4 witness: a 200 response with `max-age=60` under `min_age = 1200`
gets TTL `min(60, 1200) = 60`. -/
theorem fetch_effective_ttl_witness :
    (Feed.mk gMa60 60).expire_dt = 0 +
      ((match parseMaxAge ((assocGet gMa60.headers "cache-control").getD "") with
        | some d => min d 1200
        | none => 1200 : Nat) : Int) :=
  (fetch_effective_ttl 1200 false [] 0 "u" (some gMa60) none none ⟨gMa60, 60⟩ gMa60
     (by decide)).2 gMa60 200 rfl rfl (by decide)

/-- C5: a 304 (not-modified) response on a stale cached entry (that does not
trip the malformed guard) returns and re-writes the previously cached
payload — not any new body — while the expiration is recomputed from the
present call's clock reading. -/
theorem fetch_not_modified (minAge : Nat) (fileExists : Bool) (table : Store)
    (now : Int) (url : String) (g : FeedParserDict) (c : Feed)
    (hc : cachedLookup fileExists table url = some c)
    (hstale : c.expire_dt ≤ now)
    (h304 : g.status = some 304)
    (hguard : ¬ (g.entries.length = 0 ∧ g.bozo)) :
    fetch minAge fileExists table now url (some g) =
      .fetched (stripWeakEtag c.feed.etag) c.feed.modified
        (.success ⟨c.feed, now + effectiveTTL minAge c.feed⟩ c.feed) ∧
    fetchStoreAfter minAge fileExists table now url (some g) =
      storeSet table url ⟨c.feed, now + effectiveTTL minAge c.feed⟩ := by
  have hf := fetch_304_eq minAge fileExists table now url g c hc hstale h304 hguard
  exact ⟨hf, by unfold fetchStoreAfter; rw [hf]⟩

/-- C5 witness: a concrete 304 on a stale entry returns and rewrites that
entry's payload with a fresh expiration. -/
theorem fetch_not_modified_witness :
    fetch 1200 true [("u", c5cached)] 1000 "u" (some c5resp) =
      .fetched (stripWeakEtag c5cached.feed.etag) c5cached.feed.modified
        (.success ⟨c5cached.feed, 1000 + effectiveTTL 1200 c5cached.feed⟩ c5cached.feed) ∧
    fetchStoreAfter 1200 true [("u", c5cached)] 1000 "u" (some c5resp) =
      storeSet [("u", c5cached)] "u"
        ⟨c5cached.feed, 1000 + effectiveTTL 1200 c5cached.feed⟩ :=
  fetch_not_modified 1200 true [("u", c5cached)] 1000 "u" c5resp c5cached
    (by decide) (by decide) rfl (by decide)

/-- C6 counterexample: on a 304 revalidation whose own cache-control header
carries `max-age=800` (with `min_age = 1200`), the entry is rewritten with
TTL 60 taken from the previously cached payload's header — not with
`min(800, 1200) = 800` from the revalidation response, as the claim states. -/
theorem fetch_304_ttl_counterexample :
    fetch 1200 true [("u", c6cached)] 1000 "u" (some c6resp) =
      .fetched (some "\"t6\"") (some "lm6")
        (.success ⟨c6cached.feed, 1060⟩ c6cached.feed) ∧
    parseMaxAge ((assocGet c6resp.headers "cache-control").getD "") = some 800 ∧
    min (800 : Nat) 1200 = 800 ∧
    (1060 : Int) ≠ 1000 + 800 :=
  ⟨by decide, by decide, by decide, by decide⟩

/-- C6 amended: on a not-modified (304) response the TTL of the rewritten
entry is derived from the previously cached payload's cache-control header
(the previous payload is substituted before the header is parsed), falling
back to `min_age` when that cached payload carries no max-age directive;
the revalidation response's own headers are not consulted. -/
theorem fetch_304_ttl_from_cached (minAge : Nat) (fileExists : Bool) (table : Store)
    (now : Int) (url : String) (g : FeedParserDict) (c : Feed)
    (hc : cachedLookup fileExists table url = some c)
    (hstale : c.expire_dt ≤ now)
    (h304 : g.status = some 304)
    (hguard : ¬ (g.entries.length = 0 ∧ g.bozo)) :
    ∃ w : Feed, fetch minAge fileExists table now url (some g) =
        .fetched (stripWeakEtag c.feed.etag) c.feed.modified (.success w c.feed) ∧
      w.expire_dt = now +
        ((match parseMaxAge ((assocGet c.feed.headers "cache-control").getD "") with
          | some d => min d minAge
          | none => minAge : Nat) : Int) :=
  ⟨⟨c.feed, now + effectiveTTL minAge c.feed⟩,
   fetch_304_eq minAge fileExists table now url g c hc hstale h304 hguard, rfl⟩

/-- C6 amended witness: with `max-age=60` stored and `max-age=800` in the
revalidation response, the rewritten TTL is 60. -/
theorem fetch_304_ttl_from_cached_witness :
    ∃ w : Feed, fetch 1200 true [("u", c6cached)] 1000 "u" (some c6resp) =
        .fetched (stripWeakEtag c6cached.feed.etag) c6cached.feed.modified
          (.success w c6cached.feed) ∧
      w.expire_dt = 1000 +
        ((match parseMaxAge ((assocGet c6cached.feed.headers "cache-control").getD "") with
          | some d => min d 1200
          | none => 1200 : Nat) : Int) :=
  fetch_304_ttl_from_cached 1200 true [("u", c6cached)] 1000 "u" c6resp c6cached
    (by decide) (by decide) rfl (by decide)

/-- C7 counterexample: the stored entity tag `WW/abc` does not begin with
the weak-validator prefix `W/`, so the claim says it is passed to the
collaborator unchanged; the source's `lstrip('W/')` instead strips every
leading `W` and `/` character and passes `abc`. -/
theorem fetch_etag_counterexample :
    (∃ out, fetch 1200 true [("u", c7cached)] 5 "u" none =
       .fetched (some "abc") (some "lm7") out) ∧
    (some "abc" : Option String) ≠ some "WW/abc" ∧
    ¬ ∃ rest : List Char, "WW/abc".toList = 'W' :: '/' :: rest := by
  refine ⟨⟨.fetchError none, by decide⟩, by decide, ?_⟩
  rintro ⟨rest, h⟩
  rw [show "WW/abc".toList = ['W', 'W', '/', 'a', 'b', 'c'] from rfl] at h
  exact absurd (List.cons.inj (List.cons.inj h).2).1 (by decide)

/-- C7 amended: for a stale cached entry, the etag hint passed to the
collaborator is the stored tag with ALL leading `W` and `/` characters
removed (Python `lstrip` set semantics, not prefix removal) — in particular
a canonical weak tag `W/…` whose remainder does not itself begin with `W`
or `/` loses exactly the weak prefix, and a tag beginning with neither `W`
nor `/` is passed unchanged; an absent or empty stored tag passes no etag;
the stored last-modified marker is passed through unchanged. -/
theorem fetch_etag_lstrip (minAge : Nat) (fileExists : Bool) (table : Store)
    (now : Int) (url : String) (resp : Option FeedParserDict) (c : Feed)
    (hc : cachedLookup fileExists table url = some c)
    (hstale : c.expire_dt ≤ now) :
    (fetch minAge fileExists table now url resp =
       .fetched (stripWeakEtag c.feed.etag) c.feed.modified
         (classify minAge (some c) now resp)) ∧
    (∀ e, c.feed.etag = some e → e ≠ "" →
       stripWeakEtag c.feed.etag = some (String.mk (lstripSet e.toList))) ∧
    (∀ e h rest, c.feed.etag = some e → e.toList = 'W' :: '/' :: h :: rest →
       h ≠ 'W' → h ≠ '/' →
       stripWeakEtag c.feed.etag = some (String.mk (h :: rest))) ∧
    (∀ e h rest, c.feed.etag = some e → e.toList = h :: rest →
       h ≠ 'W' → h ≠ '/' → stripWeakEtag c.feed.etag = some e) := by
  refine ⟨fetch_stale_eq minAge fileExists table now url resp c hc hstale, ?_, ?_, ?_⟩
  · intro e he hne
    rw [he]
    show (if e = "" then none else some (lstripWSlash e)) = some (String.mk (lstripSet e.toList))
    rw [if_neg hne]
    rfl
  · intro e h rest he hlist hW hS
    have hne : e ≠ "" := by
      intro h0
      rw [h0] at hlist
      cases hlist
    have hnot : ¬ (h = 'W' ∨ h = '/') := by
      rintro (h1 | h1)
      exacts [hW h1, hS h1]
    have hl : lstripSet ('W' :: '/' :: h :: rest) = h :: rest :=
      lstripSet_cons_of_not h rest hnot
    rw [he]
    show (if e = "" then none else some (lstripWSlash e)) = some (String.mk (h :: rest))
    rw [if_neg hne]
    unfold lstripWSlash
    rw [hlist, hl]
  · intro e h rest he hlist hW hS
    have hne : e ≠ "" := by
      intro h0
      rw [h0] at hlist
      cases hlist
    have hnot : ¬ (h = 'W' ∨ h = '/') := by
      rintro (h1 | h1)
      exacts [hW h1, hS h1]
    have hl : lstripSet (h :: rest) = h :: rest :=
      lstripSet_cons_of_not h rest hnot
    rw [he]
    show (if e = "" then none else some (lstripWSlash e)) = some e
    rw [if_neg hne]
    unfold lstripWSlash
    rw [hlist, hl, ← hlist]
    rfl

/-- C7 amended witness: the canonical weak tag `W/x` loses exactly its weak
prefix. -/
theorem fetch_etag_lstrip_witness :
    stripWeakEtag c7weak.feed.etag = some (String.mk ['x' ]) :=
  ((fetch_etag_lstrip 1200 true [("u", c7weak)] 5 "u" none c7weak (by decide)
      (by decide)).2.2.1) "W/x" 'x' [] rfl rfl (by decide) (by decide)

end FeedFetch
